import Mathlib

/-!
Verification of the PVschedule dynamic-programming scheduler.

This file gives a shallow embedding of the DP core in
`Modules/DynamicProg/dynamic_programming.py` (function `dynamic_prog_pv`)
together with the calendar generator `Modules/Model/allowed_generator.py`,
and proves properties of that embedding.

Modelling conventions:
* floating point numbers are embedded as rationals `ℚ` (all operations used
  by the code are field operations, `numpy.round` and `int()`);
* the stage cost, which the code sets to `inf` for out-of-domain
  transitions, lives in `Cost := WithTop ℚ`;
* numpy tensors over the grid become functions from index triples;
* Python dictionary lookups and list indexing that can raise become
  `Except`/`Option`-valued readers.
-/

namespace PVDP

/-- Stage costs: rationals extended with `⊤` (the code's `inf`). -/
abbrev Cost := WithTop ℚ

/-- Python `int()` on a nonnegative/negative real: truncation toward zero. -/
def pyInt (q : ℚ) : ℤ := if 0 ≤ q then ⌊q⌋ else -⌊-q⌋

/-- `numpy.round` (and Python 3 `round`): nearest integer, ties to even. -/
def roundHalfEven (q : ℚ) : ℤ :=
  if q - ⌊q⌋ < 1/2 then ⌊q⌋
  else if 1/2 < q - ⌊q⌋ then ⌊q⌋ + 1
  else if ⌊q⌋ % 2 = 0 then ⌊q⌋ else ⌊q⌋ + 1

/-- Tick `i` of `numpy.linspace a b n` (for `n = 1` the quotient is `0/0 = 0`
in `ℚ`, giving `a`, which matches numpy's special case). -/
def linspace (a b : ℚ) (n : ℕ) (i : ℕ) : ℚ := a + (b - a) * i / ((n : ℚ) - 1)

/-! ## Generic backward induction

`dynamic_prog_pv` lines 208–241 run the Bellman recursion over precomputed
transition tensors.  We embed the tensors as a `DPTable` over an arbitrary
cell type `S`; controls are `Bool` (`false` = control `0`, `true` = `1`). -/

/-- Precomputed transition table: per control, successor cell (`next_x1/2/3`)
and stage cost (`stage_J`). -/
structure DPTable (S : Type) where
  nxt : Bool → S → S
  stJ : Bool → S → Cost

/-- Admissible control list at stage `k` (lines 220–224):
`[0]` when `k ∈ t_blocked`, else `[0, 1]`. -/
def uFeas (blocked : ℕ → Bool) (k : ℕ) : List Bool :=
  if blocked k then [false] else [false, true]

/-- Candidate cost-to-go `J[next_x1[u], next_x2[u], next_x3[u]] + stage_J[u]`
(line 228). -/
def cand {S : Type} (T : DPTable S) (J : S → Cost) (u : Bool) (s : S) : Cost :=
  J (T.nxt u s) + T.stJ u s

/-- One control test (lines 228–231): strictly-less comparison against the
running minimum, updating both the running value and the winning control. -/
def ctrlUpdate {S : Type} (T : DPTable S) (J : S → Cost)
    (p : (S → Cost) × (S → Bool)) (u : Bool) : (S → Cost) × (S → Bool) :=
  (fun s => if cand T J u s < p.1 s then cand T J u s else p.1 s,
   fun s => if cand T J u s < p.1 s then u else p.2 s)

/-- One backward-induction stage (lines 218–231): running minimum starts at
`inf*ones`, winning control at `zeros(dtype=bool)`. -/
def stageStep {S : Type} (T : DPTable S) (blocked : ℕ → Bool) (k : ℕ)
    (J : S → Cost) : (S → Cost) × (S → Bool) :=
  (uFeas blocked k).foldl (ctrlUpdate T J) (fun _ => ⊤, fun _ => false)

/-- Backward sweep over a forward list of stages (lines 213–239): the code
iterates `for k in reversed(range(N))` starting from `J = zeros`, appends the
per-stage winning-control tensor and reverses the list at the end; this is
exactly structural recursion on the forward stage list, processing the last
stage first. -/
def sweep {S : Type} (T : DPTable S) (blocked : ℕ → Bool) :
    List ℕ → ((S → Cost) × List (S → Bool))
  | [] => (fun _ => 0, [])
  | k :: ks =>
      let r := sweep T blocked ks
      let q := stageStep T blocked k r.1
      (q.1, q.2 :: r.2)

/-- Value function produced by the backward sweep from stage list `ks`. -/
def valDP {S : Type} (T : DPTable S) (blocked : ℕ → Bool) (ks : List ℕ) :
    S → Cost :=
  (sweep T blocked ks).1

/-- Total accumulated transition cost of a control sequence (the quantity the
backward sweep minimises). -/
def seqCost {S : Type} (T : DPTable S) : List Bool → S → Cost
  | [], _ => 0
  | u :: us, s => T.stJ u s + seqCost T us (T.nxt u s)

/-- Calendar admissibility of a control sequence against a stage list:
each control must belong to the feasible list of its stage. -/
def admissibleChk (blocked : ℕ → Bool) : List ℕ → List Bool → Bool
  | [], [] => true
  | k :: ks, u :: us => (uFeas blocked k).elem u && admissibleChk blocked ks us
  | _, _ => false

/-- Forward policy replay (lines 251–264): at the current cell look up the
stored optimal control, accumulate the stage cost, move to the successor cell
from the transition table and report the grid tick value of that cell. -/
def replayWalk {S : Type} (T : DPTable S) (tick : S → ℚ × ℚ × ℚ) :
    List (S → Bool) → S → List Bool × List (ℚ × ℚ × ℚ) × Cost
  | [], _ => ([], [], 0)
  | p :: ps, c =>
      let u := p c
      let c2 := T.nxt u c
      let r := replayWalk T tick ps c2
      (u :: r.1, tick c2 :: r.2.1, T.stJ u c + r.2.2)

/-- The sequence of cells visited by the replay (successor cell after each
stage, in forward order). -/
def cellTrace {S : Type} (T : DPTable S) : List (S → Bool) → S → List S
  | [], _ => []
  | p :: ps, c =>
      let c2 := T.nxt (p c) c
      c2 :: cellTrace T ps c2

/-! ## Dynamics, RK4 integration and the treatment jump

Lines 96–149 of `dynamic_prog_pv`: the ODE right-hand side `f`, `NK` steps of
classical RK4 over one decision interval, and the end-of-interval volume jump
`X3_k *= (1 - 500./patient_volume)` applied when the control value is `1`. -/

/-- One point of the four-dimensional integration state `(x1, x2, x3, q)`
(`q` is the running stage-cost integral). -/
structure St where
  x1 : ℚ
  x2 : ℚ
  x3 : ℚ
  q : ℚ
deriving DecidableEq

/-- System dynamics `f` (lines 96–106); `pin = (p_in[0], p_in[1])`. -/
def fDyn (pin : ℚ × ℚ) (pvLambda Base : ℚ) (u : ℚ) (s : St) : St :=
  let k1 : ℚ := 1/8
  let k2 : ℚ := 1/6
  let alpha : ℚ := 1/120
  let gammaPv : ℚ := (1/10) * pin.1
  let X0const : ℚ := alpha * Base
  { x1 := pin.1 * (X0const - k1 * s.x1)
        + pin.2 * (1 - pvLambda) * (1 - s.x3 / Base) * s.x1
        + pvLambda * gammaPv * s.x1
    x2 := pin.1 * (k1 * s.x1 - k2 * s.x2)
    x3 := pin.1 * (k2 * s.x2 - alpha * s.x3)
    q := u }

/-- One RK4 step of size `DT` (lines 133–140). -/
def rk4Step (pin : ℚ × ℚ) (pvLambda Base DT u : ℚ) (s : St) : St :=
  let s1 := fDyn pin pvLambda Base u s
  let s2 := fDyn pin pvLambda Base u
    ⟨s.x1 + DT/2 * s1.x1, s.x2 + DT/2 * s1.x2, s.x3 + DT/2 * s1.x3, s.q⟩
  let s3 := fDyn pin pvLambda Base u
    ⟨s.x1 + DT/2 * s2.x1, s.x2 + DT/2 * s2.x2, s.x3 + DT/2 * s2.x3, s.q⟩
  let s4 := fDyn pin pvLambda Base u
    ⟨s.x1 + DT * s3.x1, s.x2 + DT * s3.x2, s.x3 + DT * s3.x3, s.q⟩
  { x1 := s.x1 + DT/6 * (s1.x1 + 2 * s2.x1 + 2 * s3.x1 + s4.x1)
    x2 := s.x2 + DT/6 * (s1.x2 + 2 * s2.x2 + 2 * s3.x2 + s4.x2)
    x3 := s.x3 + DT/6 * (s1.x3 + 2 * s2.x3 + 2 * s3.x3 + s4.x3)
    q := s.q + DT/6 * (s1.q + 2 * s2.q + 2 * s3.q + s4.q) }

/-- `NK` consecutive RK4 steps (the `for k in range(NK)` loop, lines 131–140). -/
def rk4Iter (pin : ℚ × ℚ) (pvLambda Base DT u : ℚ) : ℕ → St → St
  | 0, s => s
  | k + 1, s => rk4Iter pin pvLambda Base DT u k (rk4Step pin pvLambda Base DT u s)

/-- End-of-interval treatment jump (lines 142–143): if the control value
equals `1`, the third coordinate is scaled by `(1 - 500/patient_volume)`. -/
def applyJump (patientVolume u : ℚ) (s : St) : St :=
  if u = 1 then { s with x3 := s.x3 * (1 - 500 / patientVolume) } else s

/-- Continuous successor of one grid point under control value `u`
(lines 125–149): RK4 over the interval starting with `q = 0`, then the jump. -/
def contSuccessor (pin : ℚ × ℚ) (pvLambda Base patientVolume DT : ℚ) (NK : ℕ)
    (u : ℚ) (x : ℚ × ℚ × ℚ) : St :=
  applyJump patientVolume u
    (rk4Iter pin pvLambda Base DT u NK ⟨x.1, x.2.1, x.2.2, 0⟩)

/-! ## Grid, rounding rule and out-of-domain redirection

Lines 108–203: the hard-coded state grid, the rounding rule that snaps a
continuous successor to a grid index, and the out-of-bounds redirection that
stores sentinel index `0` with stage cost `inf`. -/

/-- Grid point of cell `c = (i1, i2, i3)` (lines 115–118): the meshgrid of
`linspace(50,170,NX)`, `linspace(35,150,NX)`, `linspace(0.8*Base,1.1*Base,NX)`. -/
def gridPoint (NX : ℕ) (Base : ℚ) (c : ℕ × ℕ × ℕ) : ℚ × ℚ × ℚ :=
  (linspace 50 170 NX c.1, linspace 35 150 NX c.2.1,
   linspace ((4/5) * Base) ((11/10) * Base) NX c.2.2)

/-- The rounding rule (lines 174–176 and 247–249):
`round(shift + (value - tick[0]) / (tick[-1] - tick[0]) * (NX - 1))`. -/
def snapIdx (shift t0 tLast : ℚ) (NX : ℕ) (v : ℚ) : ℤ :=
  roundHalfEven (shift + (v - t0) / (tLast - t0) * ((NX : ℚ) - 1))

/-- The shift used by the rounding rule (lines 156–161): `dp_options['p_shift']`
when supplied, else the default `0.0`. -/
def pShiftOf (o : Option ℚ) : ℚ := o.getD 0

/-- Control value at list position `p ∈ {0, 1}` of `U = linspace(0, 1, NU)`
(lines 109 and 172): position `0` is control value `0`, position `1` is
`1/(NU-1)` (equal to `1` exactly when `NU = 2`). -/
def uVal (NU : ℕ) (p : Bool) : ℚ := linspace 0 1 NU (if p then 1 else 0)

/-- Continuous successor of cell `c` under control position `p`. -/
def succAt (pin : ℚ × ℚ) (pvLambda Base patientVolume DT : ℚ) (NK NU NX : ℕ)
    (p : Bool) (c : ℕ × ℕ × ℕ) : St :=
  contSuccessor pin pvLambda Base patientVolume DT NK (uVal NU p)
    (gridPoint NX Base c)

/-- Pre-redirection successor grid indices of cell `c` under control position
`p` (lines 174–176). -/
def rawIdxs (pin : ℚ × ℚ) (pvLambda Base patientVolume DT shift : ℚ)
    (NK NU NX : ℕ) (p : Bool) (c : ℕ × ℕ × ℕ) : ℤ × ℤ × ℤ :=
  let s := succAt pin pvLambda Base patientVolume DT NK NU NX p c
  (snapIdx shift (linspace 50 170 NX 0) (linspace 50 170 NX (NX - 1)) NX s.x1,
   snapIdx shift (linspace 35 150 NX 0) (linspace 35 150 NX (NX - 1)) NX s.x2,
   snapIdx shift (linspace ((4/5) * Base) ((11/10) * Base) NX 0)
     (linspace ((4/5) * Base) ((11/10) * Base) NX (NX - 1)) NX s.x3)

/-- Out-of-domain redirection (lines 179–197), applied in source order:
for each dimension, a negative index forces cost `inf` and index `0`; then
for each dimension, an index `≥ NX` forces cost `inf` and index `0`. -/
def redirect (NX : ℕ) (r : ℤ × ℤ × ℤ) (q0 : Cost) : (ℤ × ℤ × ℤ) × Cost :=
  let q1 := if r.1 < 0 then ⊤ else q0
  let i1 := if r.1 < 0 then 0 else r.1
  let q2 := if r.2.1 < 0 then ⊤ else q1
  let i2 := if r.2.1 < 0 then 0 else r.2.1
  let q3 := if r.2.2 < 0 then ⊤ else q2
  let i3 := if r.2.2 < 0 then 0 else r.2.2
  let q4 := if (NX : ℤ) ≤ i1 then ⊤ else q3
  let j1 := if (NX : ℤ) ≤ i1 then 0 else i1
  let q5 := if (NX : ℤ) ≤ i2 then ⊤ else q4
  let j2 := if (NX : ℤ) ≤ i2 then 0 else i2
  let q6 := if (NX : ℤ) ≤ i3 then ⊤ else q5
  let j3 := if (NX : ℤ) ≤ i3 then 0 else i3
  ((j1, j2, j3), q6)

/-- Stored successor cell of the transition table (lines 174–203): rounded
indices after redirection, as natural numbers. -/
def tableNext (pin : ℚ × ℚ) (pvLambda Base patientVolume DT shift : ℚ)
    (NK NU NX : ℕ) (p : Bool) (c : ℕ × ℕ × ℕ) : ℕ × ℕ × ℕ :=
  let r := redirect NX (rawIdxs pin pvLambda Base patientVolume DT shift NK NU NX p c)
    ((succAt pin pvLambda Base patientVolume DT NK NU NX p c).q : Cost)
  (r.1.1.toNat, r.1.2.1.toNat, r.1.2.2.toNat)

/-- Stored stage cost of the transition table (lines 174–203). -/
def tableCost (pin : ℚ × ℚ) (pvLambda Base patientVolume DT shift : ℚ)
    (NK NU NX : ℕ) (p : Bool) (c : ℕ × ℕ × ℕ) : Cost :=
  (redirect NX (rawIdxs pin pvLambda Base patientVolume DT shift NK NU NX p c)
    ((succAt pin pvLambda Base patientVolume DT NK NU NX p c).q : Cost)).2

/-- The full transition table of `dynamic_prog_pv` as a `DPTable`. -/
def dpTable (pin : ℚ × ℚ) (pvLambda Base patientVolume DT shift : ℚ)
    (NK NU NX : ℕ) : DPTable (ℕ × ℕ × ℕ) where
  nxt := tableNext pin pvLambda Base patientVolume DT shift NK NU NX
  stJ := tableCost pin pvLambda Base patientVolume DT shift NK NU NX

/-! ## Calendar generator

`Modules/Model/allowed_generator.py` (lines 63–86) and the DP solver's own
blocked-stage list (`dynamic_prog_pv` lines 74–82).  Mask entries are
integers; forbidden-day options are flattened to lists of day numbers
(a plain `int` entry is a singleton list). -/

/-- Index update of one loop iteration (`allowed_generator` lines 78–83):
the hour index wraps at `Nperday` and then the day index advances, wrapping
at `7`. -/
def advanceHD (Nperday : ℕ) (h d : ℕ) : ℕ × ℕ :=
  if h + 1 = Nperday then (0, if d + 1 = 7 then 0 else d + 1) else (h + 1, d)

/-- One entry of the allowed array (line 71): allowed iff the hour slot is
enabled, the weekday is enabled and `int(current_time)` is not forbidden. -/
def allowedEntry (hours days : List ℤ) (forb : List ℤ) (h d : ℕ) (t : ℚ) : ℕ :=
  if 0 < hours.getD h 0 ∧ 0 < days.getD d 0 ∧ pyInt t ∉ forb then 1 else 0

/-- The generator loop (lines 64–84), by recursion on the number of remaining
grid points, carrying `hour_idx`, `day_idx` and `current_time`. -/
def allowedGenAux (Nperday : ℕ) (hours days : List ℤ) (forb : List ℤ)
    (dt : ℚ) : ℕ → ℕ → ℕ → ℚ → List ℕ
  | 0, _, _, _ => []
  | n + 1, h, d, t =>
      allowedEntry hours days forb h d t ::
        allowedGenAux Nperday hours days forb dt n
          (advanceHD Nperday h d).1 (advanceHD Nperday h d).2 (t + dt)

/-- `allowed_generator(Nperday, dict_opts, N, dt)` after the option lookups of
lines 40–61 resolved `allowed_hours`, `allowed_days` and the flattened
`forbidden_days`. -/
def allowedGenerator (Nperday : ℕ) (hours days forb : List ℤ) (N : ℕ)
    (dt : ℚ) : List ℕ :=
  allowedGenAux Nperday hours days forb dt N 0 0 0

/-- `allowed_idx` of `dynamic_prog_pv` line 76: the weekdays whose
`allowed_days` entry equals `1`. -/
def allowedIdxDP (days : List ℤ) : List ℕ :=
  (List.range 7).filter (fun i => days.getD i 0 = 1)

/-- `t_blocked` of `dynamic_prog_pv` lines 77–82: the stages whose weekday is
not allowed, followed by all flattened forbidden days. -/
def tBlockedDP (N : ℕ) (days : List ℤ) (forb : List (List ℤ)) : List ℤ :=
  ((List.range N).filter (fun j => j % 7 ∉ allowedIdxDP days)).map
    (fun j : ℕ => (j : ℤ)) ++ forb.flatten

/-- The DP solver's admissible control list at stage `k` (lines 220–224),
written over the concrete blocked list. -/
def uFeasDP (N : ℕ) (days : List ℤ) (forb : List (List ℤ)) (k : ℕ) :
    List Bool :=
  uFeas (fun j => decide ((j : ℤ) ∈ tBlockedDP N days forb)) k

/-- `k`-fold application of the generator's index update: the loop position
after `k` iterations. -/
def advK (Nperday : ℕ) : ℕ → ℕ × ℕ → ℕ × ℕ
  | 0, hd => hd
  | k + 1, hd => advK Nperday k (advanceHD Nperday hd.1 hd.2)

/-! ## Forward replay entry point

Lines 243–264: snap the true initial state with the zero-shift rounding rule
(no out-of-domain redirection is applied there), then index the stored policy
and transition tensors with the resulting raw integers.  Python list/array
indexing accepts indices in `[-len, len)`, wrapping negative ones. -/

/-- Python-style array index resolution over axis length `NX`: indices in
`[0, NX)` address directly, indices in `[-NX, 0)` wrap around, anything else
raises `IndexError` (`none`). -/
def wrapIdx (NX : ℕ) (i : ℤ) : Option ℕ :=
  if 0 ≤ i ∧ i < (NX : ℤ) then some i.toNat
  else if -(NX : ℤ) ≤ i ∧ i < 0 then some (i + NX).toNat
  else none

/-- Snap of the true initial state (lines 247–249): the rounding rule with
zero shift in each dimension, with no redirection applied. -/
def initCell (NX : ℕ) (Base : ℚ) (x0 : ℚ × ℚ × ℚ) : ℤ × ℤ × ℤ :=
  (snapIdx 0 (linspace 50 170 NX 0) (linspace 50 170 NX (NX - 1)) NX x0.1,
   snapIdx 0 (linspace 35 150 NX 0) (linspace 35 150 NX (NX - 1)) NX x0.2.1,
   snapIdx 0 (linspace ((4/5) * Base) ((11/10) * Base) NX 0)
     (linspace ((4/5) * Base) ((11/10) * Base) NX (NX - 1)) NX x0.2.2)

/-- Reported (grid-quantized) state of a cell: the tick values of its three
indices (lines 262–264). -/
def dpTick (NX : ℕ) (Base : ℚ) (c : ℕ × ℕ × ℕ) : ℚ × ℚ × ℚ :=
  gridPoint NX Base c

/-- Replay starting from the raw snapped initial indices (lines 250–264):
resolve the three initial indices with Python indexing semantics, then walk
the stored policies; the reported state list starts with the raw `x0`. -/
def replayFromInit (T : DPTable (ℕ × ℕ × ℕ)) (tick : (ℕ × ℕ × ℕ) → ℚ × ℚ × ℚ)
    (pols : List ((ℕ × ℕ × ℕ) → Bool)) (x0 : ℚ × ℚ × ℚ) (NX : ℕ)
    (c0 : ℤ × ℤ × ℤ) : Option (List Bool × List (ℚ × ℚ × ℚ) × Cost) := do
  let i1 ← wrapIdx NX c0.1
  let i2 ← wrapIdx NX c0.2.1
  let i3 ← wrapIdx NX c0.2.2
  let r := replayWalk T tick pols (i1, i2, i3)
  some (r.1, x0 :: r.2.1, r.2.2)

/-- The whole numeric core of `dynamic_prog_pv` after the option reads:
build the transition table, run the backward sweep over the horizon and
replay the stored policy from the snapped initial state. -/
def dpCore (Tf : ℚ) (x0 : ℚ × ℚ × ℚ) (Base pvLambda : ℚ) (pin : ℚ × ℚ)
    (patientVolume : ℚ) (days : List ℤ) (forb : List (List ℤ))
    (NK NU NX : ℕ) (pShiftOpt : Option ℚ) :
    Option (List Bool × List (ℚ × ℚ × ℚ) × Cost) :=
  let N : ℕ := (pyInt Tf).toNat
  let DT : ℚ := Tf / (((pyInt Tf : ℚ)) * (NK : ℚ))
  let T := dpTable pin pvLambda Base patientVolume DT (pShiftOf pShiftOpt) NK NU NX
  let blocked := fun k : ℕ => decide ((k : ℤ) ∈ tBlockedDP N days forb)
  let pols := (sweep T blocked (List.range N)).2
  replayFromInit T (dpTick NX Base) pols x0 NX (initCell NX Base x0)

/-! ## Configuration reading and the failure surface

`dynamic_prog_pv` performs no explicit validation; the failures a caller can
see are the implicit ones of lines 65–93 (missing dictionary keys, a day mask
shorter than the seven accessed entries, and the division `DT = Tf/(N*NK)`) and
the later tick accesses `x1[0]`, `x1[-1]` of lines 174–176, which raise
`IndexError` exactly when the tick array is empty (`NX = 0`). -/

/-- The `allowed_opts` dictionary: both keys optional. -/
structure AllowedOptsDict where
  allowedDays : Option (List ℤ)
  forbiddenDays : Option (List (List ℤ))

/-- The `dp_options` dictionary: all keys optional. -/
structure DpOptionsDict where
  NK : Option ℕ
  NU : Option ℕ
  NX : Option ℕ
  pShift : Option ℚ

/-- Configuration resolved by the start of the solve (lines 65–93). -/
structure StartCfg where
  N : ℕ
  days : List ℤ
  forb : List (List ℤ)
  NK : ℕ
  NU : ℕ
  NX : ℕ
  pShift : Option ℚ
  DT : ℚ
deriving DecidableEq

/-- The reads of lines 65–93, with their implicit Python failures made
explicit: `KeyError` for a missing required key, `IndexError` when
`allowed_days` has fewer than the seven accessed entries, and
`ZeroDivisionError` when `N*NK = 0` in `DT = Tf/(N*NK)`. -/
def readStart (Tf : ℚ) (ao : AllowedOptsDict) (dpo : DpOptionsDict) :
    Except String StartCfg := do
  let days ← match ao.allowedDays with
    | some d => pure d
    | none => Except.error "KeyError: allowed_days"
  if days.length < 7 then Except.error "IndexError: allowed_days" else
  let forb := ao.forbiddenDays.getD []
  let nk ← match dpo.NK with
    | some v => pure v
    | none => Except.error "KeyError: NK"
  if pyInt Tf * (nk : ℤ) = 0 then Except.error "ZeroDivisionError: Tf/(N*NK)" else
  let nu ← match dpo.NU with
    | some v => pure v
    | none => Except.error "KeyError: NU"
  let nx ← match dpo.NX with
    | some v => pure v
    | none => Except.error "KeyError: NX"
  pure { N := (pyInt Tf).toNat, days := days, forb := forb, NK := nk,
         NU := nu, NX := nx, pShift := dpo.pShift,
         DT := Tf / ((pyInt Tf : ℚ) * (nk : ℚ)) }

/-- The tick array of one state dimension as a list (lines 115–117). -/
def ticksList (a b : ℚ) (NX : ℕ) : List ℚ :=
  (List.range NX).map (linspace a b NX)

/-- The accesses `x[0]` and `x[-1]` of lines 174–176: `IndexError` iff the
tick array is empty. -/
def tickEnds (l : List ℚ) : Except String (ℚ × ℚ) :=
  match l.head?, l.getLast? with
  | some a, some b => Except.ok (a, b)
  | _, _ => Except.error "IndexError: empty tick array"

/-- The control enumeration `U = linspace(0, 1, NU)` of line 109 as a list. -/
def ctrlVals (NU : ℕ) : List ℚ :=
  (List.range NU).map (linspace 0 1 NU)

/-- The list accesses `X_before_shift[u]` for `u in {0, 1}` (lines 174–178):
the per-control result lists have `NU` entries, so position `p` raises
`IndexError` iff `p ≥ NU`. -/
def ctrlAt (NU p : ℕ) : Except String ℚ :=
  match (ctrlVals NU).get? p with
  | some v => Except.ok v
  | none => Except.error "IndexError: X_before_shift"

/-- `dynamic_prog_pv` as a pipeline separating the failure surface: the
option reads of lines 65–93, then the grid-path tick accesses, then the
total numeric core (the replay's own Python indexing stays inside the
returned `Option`). -/
def dynamicProgPipeline (Tf : ℚ) (x0 : ℚ × ℚ × ℚ) (Base pvLambda : ℚ)
    (pin : ℚ × ℚ) (patientVolume : ℚ) (ao : AllowedOptsDict)
    (dpo : DpOptionsDict) :
    Except String (Option (List Bool × List (ℚ × ℚ × ℚ) × Cost)) := do
  let cfg ← readStart Tf ao dpo
  let _ ← ctrlAt cfg.NU 0
  let _ ← tickEnds (ticksList 50 170 cfg.NX)
  let _ ← tickEnds (ticksList 35 150 cfg.NX)
  let _ ← tickEnds (ticksList ((4/5) * Base) ((11/10) * Base) cfg.NX)
  let _ ← ctrlAt cfg.NU 1
  pure (dpCore Tf x0 Base pvLambda pin patientVolume cfg.days cfg.forb
    cfg.NK cfg.NU cfg.NX cfg.pShift)

/-! ## Concrete toy instances used to evaluate the theorems -/

/-- A 2×2×2 grid cell type for the toy optimality instance. -/
abbrev ToyCell : Type := Fin 2 × Fin 2 × Fin 2

/-- Initial cell of the toy instance. -/
def toyS0 : ToyCell := (0, 0, 0)

/-- Hand-made successor table: control `1` rotates the coordinates,
control `0` stays put. -/
def toyNxt (u : Bool) (c : ToyCell) : ToyCell :=
  if u then (c.2.1, c.2.2, c.1) else c

/-- Hand-made stage costs over the toy grid. -/
def toyStJ (u : Bool) (c : ToyCell) : Cost :=
  if u then (if c = toyS0 then ((1 : ℚ) : Cost) else ((5 : ℚ) : Cost))
  else ((2 : ℚ) : Cost)

/-- Hand-made 2×2×2 transition table. -/
def toyT : DPTable ToyCell := ⟨toyNxt, toyStJ⟩

/-- Reported state of a toy cell. -/
def toyTick (c : ToyCell) : ℚ × ℚ × ℚ := ((c.1 : ℚ), (c.2.1 : ℚ), (c.2.2 : ℚ))

/-- A one-cell table whose two candidate costs always tie. -/
def tieT : DPTable ℕ := ⟨fun _ n => n, fun _ _ => ((1 : ℚ) : Cost)⟩

/-- A small table over index triples for evaluating the replay entry point. -/
def probeT : DPTable (ℕ × ℕ × ℕ) := ⟨fun _ c => c, fun _ _ => 0⟩

/-! ## Generic backward-induction lemmas -/

theorem ite_lt_top (c : Cost) : (if c < ⊤ then c else ⊤) = c := by
  by_cases h : c < ⊤
  · simp [h]
  · simp [h]
    exact (lt_top_iff_ne_top.not_left.mp h).symm

theorem stageStep_fst {S : Type} (T : DPTable S) (b : ℕ → Bool) (k : ℕ)
    (J : S → Cost) (s : S) :
    (stageStep T b k J).1 s =
      if b k then cand T J false s
      else if cand T J true s < cand T J false s then cand T J true s
        else cand T J false s := by
  by_cases hb : b k
  · simp [stageStep, uFeas, hb, ctrlUpdate, ite_lt_top]
  · simp [stageStep, uFeas, hb, ctrlUpdate, ite_lt_top]

theorem stageStep_snd {S : Type} (T : DPTable S) (b : ℕ → Bool) (k : ℕ)
    (J : S → Cost) (s : S) :
    (stageStep T b k J).2 s =
      if b k then false
      else if cand T J true s < cand T J false s then true else false := by
  by_cases hb : b k
  · simp [stageStep, uFeas, hb, ctrlUpdate]
  · simp [stageStep, uFeas, hb, ctrlUpdate, ite_lt_top]

theorem stageStep_pick {S : Type} (T : DPTable S) (b : ℕ → Bool) (k : ℕ)
    (J : S → Cost) (s : S) :
    cand T J ((stageStep T b k J).2 s) s = (stageStep T b k J).1 s := by
  rw [stageStep_fst, stageStep_snd]
  by_cases hb : b k
  · simp [hb]
  · by_cases hlt : cand T J true s < cand T J false s
    · simp [hb, hlt]
    · simp [hb, hlt]

theorem stageStep_mem {S : Type} (T : DPTable S) (b : ℕ → Bool) (k : ℕ)
    (J : S → Cost) (s : S) :
    (stageStep T b k J).2 s ∈ uFeas b k := by
  rw [stageStep_snd]
  by_cases hb : b k
  · simp [uFeas, hb]
  · by_cases hlt : cand T J true s < cand T J false s
    · simp [uFeas, hb, hlt]
    · simp [uFeas, hb, hlt]

theorem valDP_nil {S : Type} (T : DPTable S) (b : ℕ → Bool) (s : S) :
    valDP T b [] s = 0 := rfl

theorem valDP_cons {S : Type} (T : DPTable S) (b : ℕ → Bool) (k : ℕ)
    (ks : List ℕ) :
    valDP T b (k :: ks) = (stageStep T b k (valDP T b ks)).1 := rfl

theorem sweep_snd_cons {S : Type} (T : DPTable S) (b : ℕ → Bool) (k : ℕ)
    (ks : List ℕ) :
    (sweep T b (k :: ks)).2 =
      (stageStep T b k (valDP T b ks)).2 :: (sweep T b ks).2 := rfl

theorem valDP_le_cand {S : Type} (T : DPTable S) (b : ℕ → Bool) (k : ℕ)
    (ks : List ℕ) (u : Bool) (s : S) (hu : u ∈ uFeas b k) :
    valDP T b (k :: ks) s ≤ cand T (valDP T b ks) u s := by
  rw [valDP_cons, stageStep_fst]
  by_cases hb : b k
  · simp only [uFeas, hb, if_true, List.mem_singleton] at hu
    simp [hb, hu]
  · simp only [if_neg hb]
    by_cases hlt : cand T (valDP T b ks) true s < cand T (valDP T b ks) false s
    · cases u
      · simp only [if_pos hlt]
        exact le_of_lt hlt
      · simp [hlt]
    · cases u
      · simp [hlt]
      · simp only [if_neg hlt]
        exact not_lt.mp hlt

theorem valDP_le_seqCost {S : Type} (T : DPTable S) (b : ℕ → Bool) :
    ∀ (ks : List ℕ) (us : List Bool) (s : S),
      admissibleChk b ks us = true → valDP T b ks s ≤ seqCost T us s := by
  intro ks
  induction ks with
  | nil =>
      intro us s h
      cases us with
      | nil => exact le_refl _
      | cons u us => simp [admissibleChk] at h
  | cons k ks ih =>
      intro us s h
      cases us with
      | nil => simp [admissibleChk] at h
      | cons u us =>
          simp only [admissibleChk, Bool.and_eq_true] at h
          have hmem : u ∈ uFeas b k := by
            have := h.1
            rwa [List.elem_iff] at this
          calc valDP T b (k :: ks) s
              ≤ cand T (valDP T b ks) u s := valDP_le_cand T b k ks u s hmem
            _ = valDP T b ks (T.nxt u s) + T.stJ u s := rfl
            _ ≤ seqCost T us (T.nxt u s) + T.stJ u s :=
                add_le_add_right (ih us (T.nxt u s) h.2) _
            _ = T.stJ u s + seqCost T us (T.nxt u s) := add_comm _ _
            _ = seqCost T (u :: us) s := rfl

theorem replay_achieves {S : Type} (T : DPTable S) (b : ℕ → Bool)
    (tick : S → ℚ × ℚ × ℚ) :
    ∀ (ks : List ℕ) (s : S),
      (replayWalk T tick (sweep T b ks).2 s).2.2 = valDP T b ks s ∧
      admissibleChk b ks (replayWalk T tick (sweep T b ks).2 s).1 = true := by
  intro ks
  induction ks with
  | nil =>
      intro s
      exact ⟨rfl, rfl⟩
  | cons k ks ih =>
      intro s
      rw [sweep_snd_cons]
      set u0 := (stageStep T b k (valDP T b ks)).2 s with hu0
      have ihs := ih (T.nxt u0 s)
      constructor
      · show T.stJ u0 s + (replayWalk T tick (sweep T b ks).2 (T.nxt u0 s)).2.2
            = valDP T b (k :: ks) s
        rw [ihs.1, add_comm]
        rw [valDP_cons]
        exact stageStep_pick T b k (valDP T b ks) s
      · show admissibleChk b (k :: ks)
            (u0 :: (replayWalk T tick (sweep T b ks).2 (T.nxt u0 s)).1) = true
        simp only [admissibleChk, Bool.and_eq_true]
        refine ⟨?_, ihs.2⟩
        rw [List.elem_iff]
        exact stageStep_mem T b k (valDP T b ks) s

/-! ## Claim C1: backward-induction optimality -/

/-- C1.  For every horizon `N`, every calendar-admissibility pattern, every
transition table and every grid cell: each unblocked stage keeps the per-cell
minimum of the candidate costs-to-go `stage_cost[u] + value[next[u]]`, the
replayed control sequence is calendar-admissible, its total accumulated
transition cost equals the swept value function at the start cell, and that
value is a lower bound on the cost of every calendar-admissible control
sequence — i.e. the selected sequence is an argmin over all admissible
sequences (on a 2-stage 2×2×2 instance this is brute-force enumeration,
see the witness). -/
theorem backward_induction_optimal {S : Type} (T : DPTable S) (b : ℕ → Bool)
    (tick : S → ℚ × ℚ × ℚ) (N : ℕ) (s : S) :
    (∀ (k : ℕ) (J : S → Cost) (s2 : S), b k = false →
        (stageStep T b k J).1 s2 = min (cand T J false s2) (cand T J true s2)) ∧
    admissibleChk b (List.range N)
      (replayWalk T tick (sweep T b (List.range N)).2 s).1 = true ∧
    (replayWalk T tick (sweep T b (List.range N)).2 s).2.2
      = valDP T b (List.range N) s ∧
    ∀ us : List Bool, admissibleChk b (List.range N) us = true →
      valDP T b (List.range N) s ≤ seqCost T us s := by
  refine ⟨?_, (replay_achieves T b tick (List.range N) s).2,
    (replay_achieves T b tick (List.range N) s).1,
    fun us h => valDP_le_seqCost T b (List.range N) us s h⟩
  intro k J s2 hb
  rw [stageStep_fst, if_neg (by simp [hb])]
  by_cases hlt : cand T J true s2 < cand T J false s2
  · rw [if_pos hlt, min_comm]
    exact (min_eq_left (le_of_lt hlt)).symm
  · rw [if_neg hlt]
    exact (min_eq_left (not_lt.mp hlt)).symm

/-- Witness for C1 on the 2-stage 2×2×2 toy instance: the replayed sequence
is `[1, 1]`, it is admissible, achieves the swept value, and brute-force
enumeration of all four admissible control sequences confirms the value is
the minimum. -/
theorem backward_induction_optimal_witness :
    (replayWalk toyT toyTick (sweep toyT (fun _ => false) (List.range 2)).2 toyS0).1
      = [true, true] ∧
    admissibleChk (fun _ => false) (List.range 2)
      (replayWalk toyT toyTick (sweep toyT (fun _ => false) (List.range 2)).2 toyS0).1 = true ∧
    (replayWalk toyT toyTick (sweep toyT (fun _ => false) (List.range 2)).2 toyS0).2.2
      = valDP toyT (fun _ => false) (List.range 2) toyS0 ∧
    valDP toyT (fun _ => false) (List.range 2) toyS0 ≤ seqCost toyT [false, false] toyS0 ∧
    valDP toyT (fun _ => false) (List.range 2) toyS0 ≤ seqCost toyT [false, true] toyS0 ∧
    valDP toyT (fun _ => false) (List.range 2) toyS0 ≤ seqCost toyT [true, false] toyS0 ∧
    valDP toyT (fun _ => false) (List.range 2) toyS0 ≤ seqCost toyT [true, true] toyS0 := by
  refine ⟨by with_unfolding_all decide,
    (backward_induction_optimal toyT (fun _ => false) toyTick 2 toyS0).2.1,
    (backward_induction_optimal toyT (fun _ => false) toyTick 2 toyS0).2.2.1,
    (backward_induction_optimal toyT (fun _ => false) toyTick 2 toyS0).2.2.2
      [false, false] (by decide),
    (backward_induction_optimal toyT (fun _ => false) toyTick 2 toyS0).2.2.2
      [false, true] (by decide),
    (backward_induction_optimal toyT (fun _ => false) toyTick 2 toyS0).2.2.2
      [true, false] (by decide),
    (backward_induction_optimal toyT (fun _ => false) toyTick 2 toyS0).2.2.2
      [true, true] (by decide)⟩

/-! ## Claim C6: tie-breaking -/

/-- C6.  At any stage and cell where both controls are admissible and their
candidate costs-to-go are equal (and finite), the winning control recorded by
the backward sweep is control `0` (`false`): controls are tested in index
order against a strictly-less comparison. -/
theorem tie_break_control_zero {S : Type} (T : DPTable S) (b : ℕ → Bool)
    (k : ℕ) (J : S → Cost) (s : S) (hb : b k = false)
    (heq : cand T J false s = cand T J true s)
    (_hfin : cand T J false s < ⊤) :
    (stageStep T b k J).2 s = false := by
  rw [stageStep_snd, if_neg (by simp [hb]), if_neg (by rw [← heq]; exact lt_irrefl _)]

/-- Witness for C6: a concrete one-cell table with equal finite candidates;
the recorded winning control is `0`. -/
theorem tie_break_control_zero_witness :
    (stageStep tieT (fun _ => false) 0 (fun _ => 0)).2 0 = false :=
  tie_break_control_zero tieT (fun _ => false) 0 (fun _ => 0) 0 rfl rfl
    (by with_unfolding_all decide)

/-! ## Claim C2: treatment-volume effect

The code (line 143) scales the third coordinate by `(1 - 500/patient_volume)`,
a fraction rebuilt from the patient blood volume — not by the caller-supplied
`max_fraction` argument, which `dynamic_prog_pv` only forwards to the final
re-integration (`integrate_nlp_sol` line 83 uses `1 - u*max_fraction`). -/

/-- Counterexample to C2 as stated: with `patient_volume = 5000` and a
caller-supplied `max_fraction = 1/2`, the stored third coordinate is the RK4
value scaled by `(1 - 500/5000)`, not by `(1 - max_fraction)`. -/
theorem treatment_jump_uses_500_over_volume :
    (contSuccessor (0, 0) 0 1 5000 1 1 1 (1, 1, 1)).x3
      = (rk4Iter (0, 0) 0 1 1 1 1 ⟨1, 1, 1, 0⟩).x3 * (1 - 500 / 5000) ∧
    (contSuccessor (0, 0) 0 1 5000 1 1 1 (1, 1, 1)).x3
      ≠ (rk4Iter (0, 0) 0 1 1 1 1 ⟨1, 1, 1, 0⟩).x3 * (1 - 1/2) := by
  constructor
  · with_unfolding_all decide
  · with_unfolding_all decide

/-- C2 (amended).  For control value `1`, the stored third successor
coordinate is the RK4-integrated value scaled once, at the end of the
interval, by `(1 - 500/patient_volume)`; the first and second coordinates are
not affected by the jump. -/
theorem treatment_jump_scales_x3 (pin : ℚ × ℚ)
    (pvLambda Base patientVolume DT : ℚ) (NK : ℕ) (u : ℚ) (x : ℚ × ℚ × ℚ)
    (hu : u = 1) :
    (contSuccessor pin pvLambda Base patientVolume DT NK u x).x3
      = (rk4Iter pin pvLambda Base DT u NK ⟨x.1, x.2.1, x.2.2, 0⟩).x3
          * (1 - 500 / patientVolume) ∧
    (contSuccessor pin pvLambda Base patientVolume DT NK u x).x1
      = (rk4Iter pin pvLambda Base DT u NK ⟨x.1, x.2.1, x.2.2, 0⟩).x1 ∧
    (contSuccessor pin pvLambda Base patientVolume DT NK u x).x2
      = (rk4Iter pin pvLambda Base DT u NK ⟨x.1, x.2.1, x.2.2, 0⟩).x2 := by
  subst hu
  exact ⟨by simp [contSuccessor, applyJump], by simp [contSuccessor, applyJump],
    by simp [contSuccessor, applyJump]⟩

/-- Witness for the amended C2 at a concrete input. -/
theorem treatment_jump_scales_x3_witness :
    (contSuccessor (0, 0) 0 1 4000 1 0 1 (3, 4, 5)).x3
      = (rk4Iter (0, 0) 0 1 1 1 0 ⟨3, 4, 5, 0⟩).x3 * (1 - 500 / 4000) ∧
    (contSuccessor (0, 0) 0 1 4000 1 0 1 (3, 4, 5)).x1
      = (rk4Iter (0, 0) 0 1 1 1 0 ⟨3, 4, 5, 0⟩).x1 :=
  ⟨(treatment_jump_scales_x3 (0, 0) 0 1 4000 1 0 1 (3, 4, 5) rfl).1,
   (treatment_jump_scales_x3 (0, 0) 0 1 4000 1 0 1 (3, 4, 5) rfl).2.1⟩

/-! ## Claim C3: the rounding rule -/

/-- C3.  The pre-redirection successor index in each dimension equals
`round(shift + (value - tick[0]) / (tick[-1] - tick[0]) * (NX-1))` applied to
the continuous successor coordinate, where the shift is the configurable
`p_shift` defaulting to `0` when not supplied. -/
theorem rounding_rule_formula (pin : ℚ × ℚ)
    (pvLambda Base patientVolume DT : ℚ) (o : Option ℚ) (NK NU NX : ℕ)
    (p : Bool) (c : ℕ × ℕ × ℕ) :
    (rawIdxs pin pvLambda Base patientVolume DT (pShiftOf o) NK NU NX p c).1
      = roundHalfEven (pShiftOf o +
          ((succAt pin pvLambda Base patientVolume DT NK NU NX p c).x1
              - linspace 50 170 NX 0)
            / (linspace 50 170 NX (NX - 1) - linspace 50 170 NX 0)
            * ((NX : ℚ) - 1)) ∧
    (rawIdxs pin pvLambda Base patientVolume DT (pShiftOf o) NK NU NX p c).2.1
      = roundHalfEven (pShiftOf o +
          ((succAt pin pvLambda Base patientVolume DT NK NU NX p c).x2
              - linspace 35 150 NX 0)
            / (linspace 35 150 NX (NX - 1) - linspace 35 150 NX 0)
            * ((NX : ℚ) - 1)) ∧
    (rawIdxs pin pvLambda Base patientVolume DT (pShiftOf o) NK NU NX p c).2.2
      = roundHalfEven (pShiftOf o +
          ((succAt pin pvLambda Base patientVolume DT NK NU NX p c).x3
              - linspace ((4/5) * Base) ((11/10) * Base) NX 0)
            / (linspace ((4/5) * Base) ((11/10) * Base) NX (NX - 1)
                - linspace ((4/5) * Base) ((11/10) * Base) NX 0)
            * ((NX : ℚ) - 1)) ∧
    pShiftOf none = 0 ∧ ∀ q : ℚ, pShiftOf (some q) = q :=
  ⟨rfl, rfl, rfl, rfl, fun _ => rfl⟩

/-! ## Claim C4: out-of-domain redirection safety -/

/-- Index bounds of the redirection chain of lines 179–197. -/
theorem redirect_fst_bounds (NX : ℕ) (hNX : 0 < NX) (r : ℤ × ℤ × ℤ)
    (q0 : Cost) :
    0 ≤ (redirect NX r q0).1.1 ∧ (redirect NX r q0).1.1 < NX ∧
    0 ≤ (redirect NX r q0).1.2.1 ∧ (redirect NX r q0).1.2.1 < NX ∧
    0 ≤ (redirect NX r q0).1.2.2 ∧ (redirect NX r q0).1.2.2 < NX := by
  obtain ⟨r1, r2, r3⟩ := r
  simp only [redirect]
  refine ⟨?_, ?_, ?_, ?_, ?_, ?_⟩ <;> split_ifs <;> omega

/-- Any out-of-range rounded index forces the stored stage cost to `⊤`. -/
theorem redirect_cost_top (NX : ℕ) (r : ℤ × ℤ × ℤ) (q0 : Cost)
    (h : r.1 < 0 ∨ (NX : ℤ) ≤ r.1 ∨ r.2.1 < 0 ∨ (NX : ℤ) ≤ r.2.1 ∨
      r.2.2 < 0 ∨ (NX : ℤ) ≤ r.2.2) :
    (redirect NX r q0).2 = ⊤ := by
  obtain ⟨r1, r2, r3⟩ := r
  simp only [redirect]
  rcases h with h | h | h | h | h | h <;> split_ifs <;> rfl

/-- An out-of-range rounded index is replaced by the sentinel index `0`. -/
theorem redirect_sentinel (NX : ℕ) (r : ℤ × ℤ × ℤ) (q0 : Cost) :
    ((r.1 < 0 ∨ (NX : ℤ) ≤ r.1) → (redirect NX r q0).1.1 = 0) ∧
    ((r.2.1 < 0 ∨ (NX : ℤ) ≤ r.2.1) → (redirect NX r q0).1.2.1 = 0) ∧
    ((r.2.2 < 0 ∨ (NX : ℤ) ≤ r.2.2) → (redirect NX r q0).1.2.2 = 0) := by
  obtain ⟨r1, r2, r3⟩ := r
  simp only [redirect]
  refine ⟨fun h => ?_, fun h => ?_, fun h => ?_⟩ <;> split_ifs <;> omega

/-- C4.  Every destination index stored in the transition table lies in
`[0, NX)`: a rounded index outside `[0, NX)` in any dimension is replaced by
the sentinel index `0` and the stored stage cost forced to `⊤`, so the
value-function gather and the forward replay never address an index outside
the grid. -/
theorem redirect_safe (NX : ℕ) (hNX : 0 < NX) :
    (∀ (r : ℤ × ℤ × ℤ) (q0 : Cost),
      (0 ≤ (redirect NX r q0).1.1 ∧ (redirect NX r q0).1.1 < NX ∧
       0 ≤ (redirect NX r q0).1.2.1 ∧ (redirect NX r q0).1.2.1 < NX ∧
       0 ≤ (redirect NX r q0).1.2.2 ∧ (redirect NX r q0).1.2.2 < NX) ∧
      ((r.1 < 0 ∨ (NX : ℤ) ≤ r.1 ∨ r.2.1 < 0 ∨ (NX : ℤ) ≤ r.2.1 ∨
          r.2.2 < 0 ∨ (NX : ℤ) ≤ r.2.2) → (redirect NX r q0).2 = ⊤) ∧
      ((r.1 < 0 ∨ (NX : ℤ) ≤ r.1) → (redirect NX r q0).1.1 = 0) ∧
      ((r.2.1 < 0 ∨ (NX : ℤ) ≤ r.2.1) → (redirect NX r q0).1.2.1 = 0) ∧
      ((r.2.2 < 0 ∨ (NX : ℤ) ≤ r.2.2) → (redirect NX r q0).1.2.2 = 0)) ∧
    ∀ (pin : ℚ × ℚ) (pvLambda Base patientVolume DT shift : ℚ) (NK NU : ℕ)
      (p : Bool) (c : ℕ × ℕ × ℕ),
      (tableNext pin pvLambda Base patientVolume DT shift NK NU NX p c).1 < NX ∧
      (tableNext pin pvLambda Base patientVolume DT shift NK NU NX p c).2.1 < NX ∧
      (tableNext pin pvLambda Base patientVolume DT shift NK NU NX p c).2.2 < NX := by
  constructor
  · intro r q0
    exact ⟨redirect_fst_bounds NX hNX r q0, redirect_cost_top NX r q0,
      (redirect_sentinel NX r q0).1, (redirect_sentinel NX r q0).2.1,
      (redirect_sentinel NX r q0).2.2⟩
  · intro pin pvLambda Base patientVolume DT shift NK NU p c
    have h := redirect_fst_bounds NX hNX
      (rawIdxs pin pvLambda Base patientVolume DT shift NK NU NX p c)
      ((succAt pin pvLambda Base patientVolume DT NK NU NX p c).q : Cost)
    simp only [tableNext]
    omega

/-- Witness for C4 at `NX = 1` with a concrete out-of-range index triple and
concrete table parameters. -/
theorem redirect_safe_witness :
    redirect 1 (-5, 3, 0) 0 = ((0, 0, 0), ⊤) ∧
    (redirect 1 (-5, 3, 0) (0 : Cost)).2 = ⊤ ∧
    (tableNext (0, 0) 0 1 5000 1 0 0 2 1 true (0, 0, 0)).1 < 1 ∧
    (tableNext (0, 0) 0 1 5000 1 0 0 2 1 true (0, 0, 0)).2.1 < 1 ∧
    (tableNext (0, 0) 0 1 5000 1 0 0 2 1 true (0, 0, 0)).2.2 < 1 := by
  refine ⟨by with_unfolding_all decide,
    (redirect_safe 1 (by decide)).1 (-5, 3, 0) 0 |>.2.1 (by decide),
    ?_, ?_, ?_⟩
  · exact ((redirect_safe 1 (by decide)).2 (0, 0) 0 1 5000 1 0 0 2 true (0, 0, 0)).1
  · exact ((redirect_safe 1 (by decide)).2 (0, 0) 0 1 5000 1 0 0 2 true (0, 0, 0)).2.1
  · exact ((redirect_safe 1 (by decide)).2 (0, 0) 0 1 5000 1 0 0 2 true (0, 0, 0)).2.2

/-! ## Claim C7: round-trip of the rounding rule at tick points -/

theorem roundHalfEven_natCast (i : ℕ) : roundHalfEven ((i : ℕ) : ℚ) = i := by
  have h : ⌊((i : ℕ) : ℚ)⌋ = (i : ℤ) := by
    exact_mod_cast Int.floor_natCast i
  simp only [roundHalfEven, h]
  norm_num

/-- Snapping a `linspace` tick with zero shift recovers its own index. -/
theorem snapIdx_tick (a b : ℚ) (NX : ℕ) (i : ℕ) (hNX : 2 ≤ NX)
    (hab : a ≠ b) :
    snapIdx 0 (linspace a b NX 0) (linspace a b NX (NX - 1)) NX
      (linspace a b NX i) = i := by
  have h2 : (2 : ℚ) ≤ (NX : ℚ) := by exact_mod_cast hNX
  have h1 : ((NX : ℚ) - 1) ≠ 0 := by linarith
  have hba : b - a ≠ 0 := sub_ne_zero.mpr (Ne.symm hab)
  have hcast : ((NX - 1 : ℕ) : ℚ) = (NX : ℚ) - 1 := by
    have h1n : 1 ≤ NX := le_trans one_le_two hNX
    push_cast [h1n]
    ring
  have harg : 0 + (linspace a b NX i - linspace a b NX 0)
      / (linspace a b NX (NX - 1) - linspace a b NX 0) * ((NX : ℚ) - 1)
      = ((i : ℕ) : ℚ) := by
    simp only [linspace, hcast]
    field_simp
    ring
  rw [snapIdx, harg, roundHalfEven_natCast]

/-- C7.  For each of the three tick arrays built by the code and every index
`i < NX`, snapping the tick value `tick[i]` through the rounding rule with
zero shift returns exactly `i`. -/
theorem tick_roundtrip (NX : ℕ) (Base : ℚ) (i : ℕ) (hNX : 2 ≤ NX)
    (hB : 0 < Base) (_hi : i < NX) :
    snapIdx 0 (linspace 50 170 NX 0) (linspace 50 170 NX (NX - 1)) NX
      (linspace 50 170 NX i) = i ∧
    snapIdx 0 (linspace 35 150 NX 0) (linspace 35 150 NX (NX - 1)) NX
      (linspace 35 150 NX i) = i ∧
    snapIdx 0 (linspace ((4/5) * Base) ((11/10) * Base) NX 0)
      (linspace ((4/5) * Base) ((11/10) * Base) NX (NX - 1)) NX
      (linspace ((4/5) * Base) ((11/10) * Base) NX i) = i := by
  refine ⟨snapIdx_tick 50 170 NX i hNX (by norm_num),
    snapIdx_tick 35 150 NX i hNX (by norm_num),
    snapIdx_tick ((4/5) * Base) ((11/10) * Base) NX i hNX ?_⟩
  intro h
  have : (3 / 10) * Base = 0 := by linarith
  have hB0 : Base = 0 := by linarith
  exact absurd hB0 (ne_of_gt hB)

/-- Witness for C7 at `NX = 2`, `Base = 1`, `i = 1`. -/
theorem tick_roundtrip_witness :
    snapIdx 0 (linspace 50 170 2 0) (linspace 50 170 2 (2 - 1)) 2
      (linspace 50 170 2 1) = 1 ∧
    snapIdx 0 (linspace 35 150 2 0) (linspace 35 150 2 (2 - 1)) 2
      (linspace 35 150 2 1) = 1 ∧
    snapIdx 0 (linspace ((4/5) * 1) ((11/10) * 1) 2 0)
      (linspace ((4/5) * 1) ((11/10) * 1) 2 (2 - 1)) 2
      (linspace ((4/5) * 1) ((11/10) * 1) 2 1) = 1 :=
  tick_roundtrip 2 1 1 (le_refl 2) one_pos (by decide)

/-! ## Claim C5: calendar admissibility -/

theorem advK_succ_right (Np : ℕ) :
    ∀ (k : ℕ) (hd : ℕ × ℕ), advK Np (k + 1) hd =
      advanceHD Np (advK Np k hd).1 (advK Np k hd).2 := by
  intro k
  induction k with
  | zero => intro hd; rfl
  | succ k ih => intro hd; exact ih (advanceHD Np hd.1 hd.2)

theorem advanceHD_mod (Np k : ℕ) (h : 0 < Np) :
    advanceHD Np (k % Np) ((k / Np) % 7) = ((k + 1) % Np, ((k + 1) / Np) % 7) := by
  by_cases h2 : k % Np + 1 = Np
  · have hmod : (k + 1) % Np = 0 := by
      have h3 : k + 1 = Np * (k / Np + 1) := by
        have hd := Nat.div_add_mod k Np
        rw [Nat.mul_add, Nat.mul_one]
        omega
      rw [h3]
      exact Nat.mul_mod_right Np _
    have hdiv : (k + 1) / Np = k / Np + 1 := by
      have h3 : k + 1 = Np * (k / Np + 1) := by
        have hd := Nat.div_add_mod k Np
        rw [Nat.mul_add, Nat.mul_one]
        omega
      rw [h3]
      exact Nat.mul_div_cancel_left _ h
    rw [advanceHD, if_pos h2, hmod, hdiv]
    have hday : (if (k / Np) % 7 + 1 = 7 then 0 else (k / Np) % 7 + 1)
        = (k / Np + 1) % 7 := by
      split_ifs with h4 <;> omega
    rw [hday]
  · have hlt : k % Np < Np := Nat.mod_lt _ h
    have hlt2 : k % Np + 1 < Np := by omega
    have h3 : k + 1 = (k % Np + 1) + (k / Np) * Np := by
      have hd := Nat.div_add_mod k Np
      rw [Nat.mul_comm]
      omega
    have hmod : (k + 1) % Np = k % Np + 1 := by
      rw [h3, Nat.add_mul_mod_self_right]
      exact Nat.mod_eq_of_lt hlt2
    have hdiv : (k + 1) / Np = k / Np := by
      rw [h3, Nat.add_mul_div_right _ _ h, Nat.div_eq_of_lt hlt2]
      omega
    rw [advanceHD, if_neg h2, hmod, hdiv]

theorem advK_closed (Np : ℕ) (h : 0 < Np) :
    ∀ k : ℕ, advK Np k (0, 0) = (k % Np, (k / Np) % 7) := by
  intro k
  induction k with
  | zero => simp [advK]
  | succ k ih =>
      rw [advK_succ_right, ih]
      exact advanceHD_mod Np k h

theorem allowedGenAux_get (Np : ℕ) (hours days forb : List ℤ) (dt : ℚ) :
    ∀ (n k h d : ℕ) (t : ℚ), k < n →
      (allowedGenAux Np hours days forb dt n h d t).get? k =
        some (allowedEntry hours days forb (advK Np k (h, d)).1
          (advK Np k (h, d)).2 (t + k * dt)) := by
  intro n
  induction n with
  | zero => intro k h d t hk; omega
  | succ n ih =>
      intro k h d t hk
      cases k with
      | zero => simp [allowedGenAux, advK]
      | succ k =>
          have hstep :
              (allowedGenAux Np hours days forb dt (n + 1) h d t).get? (k + 1)
                = (allowedGenAux Np hours days forb dt n
                    (advanceHD Np h d).1 (advanceHD Np h d).2 (t + dt)).get? k := by
            rfl
          rw [hstep, ih k (advanceHD Np h d).1 (advanceHD Np h d).2 (t + dt)
            (by omega)]
          have hK : advK Np (k + 1) (h, d)
              = advK Np k ((advanceHD Np h d).1, (advanceHD Np h d).2) := rfl
          rw [hK]
          have ht : t + dt + (k : ℚ) * dt = t + ((k : ℕ) + 1 : ℕ) * dt := by
            push_cast
            ring
          rw [ht]

theorem allowedGenerator_char (Np : ℕ) (hours days forbG : List ℤ) (N : ℕ)
    (dt : ℚ) (k : ℕ) (hNp : 0 < Np) (hk : k < N) (hdt : 0 ≤ dt) :
    ((allowedGenerator Np hours days forbG N dt).get? k = some 1 ↔
      (0 < hours.getD (k % Np) 0 ∧ 0 < days.getD ((k / Np) % 7) 0 ∧
        ⌊(k : ℚ) * dt⌋ ∉ forbG)) := by
  rw [allowedGenerator, allowedGenAux_get Np hours days forbG dt N k 0 0 0 hk,
    advK_closed Np hNp k]
  have hpy : pyInt ((k : ℚ) * dt) = ⌊(k : ℚ) * dt⌋ := by
    rw [pyInt, if_pos (mul_nonneg (Nat.cast_nonneg k) hdt)]
  rw [allowedEntry]
  rw [zero_add]
  split_ifs with hc
  · rw [hpy] at hc
    exact iff_of_true rfl hc
  · rw [hpy] at hc
    refine iff_of_false (by simp) hc

theorem tBlockedDP_mem (N : ℕ) (days : List ℤ) (forb : List (List ℤ))
    (k : ℕ) (hk : k < N) :
    ((k : ℤ) ∈ tBlockedDP N days forb) ↔
      (days.getD (k % 7) 0 ≠ 1 ∨ (k : ℤ) ∈ forb.flatten) := by
  have h7 : k % 7 ∈ List.range 7 := by
    rw [List.mem_range]
    omega
  have hidx : k % 7 ∈ allowedIdxDP days ↔ days.getD (k % 7) 0 = 1 := by
    rw [allowedIdxDP, List.mem_filter, decide_eq_true_eq]
    exact ⟨fun h => h.2, fun h => ⟨h7, h⟩⟩
  rw [tBlockedDP, List.mem_append, List.mem_map]
  constructor
  · rintro (⟨j, hj1, hj2⟩ | hf)
    · left
      have hjk : j = k := by omega
      subst hjk
      rw [List.mem_filter, decide_eq_true_eq] at hj1
      intro hd1
      exact hj1.2 (hidx.mpr hd1)
    · right
      exact hf
  · rintro (hd | hf)
    · left
      refine ⟨k, ?_, rfl⟩
      rw [List.mem_filter, decide_eq_true_eq]
      exact ⟨List.mem_range.mpr hk, fun hmem => hd (hidx.mp hmem)⟩
    · right
      exact hf

/-- C5.  The calendar generator marks grid point `k` allowed (entry `1`) iff
its hour-of-day slot is enabled, its day-of-week is enabled, and the integer
part of its time is not forbidden; the DP solver's admissible control list is
exactly `[0]` when stage `k` is blocked and `[0, 1]` otherwise; and with
`allowed_days = [1,1,1,1,1,0,0]` and no forbidden days, the blocked stages in
a 14-day horizon are exactly `5, 6, 12, 13` (7-day period). -/
theorem calendar_admissibility (Np N : ℕ) (hours days forbG : List ℤ)
    (forb : List (List ℤ)) (dt : ℚ) (k : ℕ) (hNp : 0 < Np) (hk : k < N)
    (hdt : 0 ≤ dt) :
    ((allowedGenerator Np hours days forbG N dt).get? k = some 1 ↔
      (0 < hours.getD (k % Np) 0 ∧ 0 < days.getD ((k / Np) % 7) 0 ∧
        ⌊(k : ℚ) * dt⌋ ∉ forbG)) ∧
    (uFeasDP N days forb k = [false] ↔
      (days.getD (k % 7) 0 ≠ 1 ∨ (k : ℤ) ∈ forb.flatten)) ∧
    (uFeasDP N days forb k = [false, true] ↔
      ¬(days.getD (k % 7) 0 ≠ 1 ∨ (k : ℤ) ∈ forb.flatten)) ∧
    tBlockedDP 14 [1, 1, 1, 1, 1, 0, 0] [] = [5, 6, 12, 13] := by
  refine ⟨allowedGenerator_char Np hours days forbG N dt k hNp hk hdt, ?_, ?_,
    by decide⟩
  · by_cases hmem : (k : ℤ) ∈ tBlockedDP N days forb
    · have hb : decide ((k : ℤ) ∈ tBlockedDP N days forb) = true :=
        decide_eq_true hmem
      rw [uFeasDP, uFeas, if_pos hb]
      exact iff_of_true rfl ((tBlockedDP_mem N days forb k hk).mp hmem)
    · have hb : decide ((k : ℤ) ∈ tBlockedDP N days forb) = true → False := by
        rw [decide_eq_false hmem]
        exact fun hcon => Bool.false_ne_true hcon
      rw [uFeasDP, uFeas, if_neg hb]
      refine iff_of_false (by simp) ?_
      exact fun hcon => hmem ((tBlockedDP_mem N days forb k hk).mpr hcon)
  · by_cases hmem : (k : ℤ) ∈ tBlockedDP N days forb
    · have hb : decide ((k : ℤ) ∈ tBlockedDP N days forb) = true :=
        decide_eq_true hmem
      rw [uFeasDP, uFeas, if_pos hb]
      refine iff_of_false (by simp) ?_
      exact fun hcon => hcon ((tBlockedDP_mem N days forb k hk).mp hmem)
    · have hb : decide ((k : ℤ) ∈ tBlockedDP N days forb) = true → False := by
        rw [decide_eq_false hmem]
        exact fun hcon => Bool.false_ne_true hcon
      rw [uFeasDP, uFeas, if_neg hb]
      exact iff_of_true rfl
        (fun hcon => hmem ((tBlockedDP_mem N days forb k hk).mpr hcon))

/-- Witness for C5: a concrete calendar configuration (6 points per day,
weekends blocked), evaluated at stage `k = 5` of a 14-stage horizon. -/
theorem calendar_admissibility_witness :
    ((allowedGenerator 6 [1, 0, 0, 0, 0, 0] [1, 1, 1, 1, 1, 0, 0] [] 14
        (1/6)).get? 5 = some 1 ↔
      (0 < ([1, 0, 0, 0, 0, 0] : List ℤ).getD (5 % 6) 0 ∧
        0 < ([1, 1, 1, 1, 1, 0, 0] : List ℤ).getD ((5 / 6) % 7) 0 ∧
        ⌊(5 : ℚ) * (1/6)⌋ ∉ ([] : List ℤ))) ∧
    (uFeasDP 14 [1, 1, 1, 1, 1, 0, 0] [] 5 = [false] ↔
      (([1, 1, 1, 1, 1, 0, 0] : List ℤ).getD (5 % 7) 0 ≠ 1 ∨
        ((5 : ℕ) : ℤ) ∈ ([] : List (List ℤ)).flatten)) ∧
    tBlockedDP 14 [1, 1, 1, 1, 1, 0, 0] [] = [5, 6, 12, 13] := by
  have h := calendar_admissibility 6 14 [1, 0, 0, 0, 0, 0] [1, 1, 1, 1, 1, 0, 0]
    [] [] (1/6) 5 (by decide) (by decide) (by norm_num)
  exact ⟨h.1, h.2.1, h.2.2.2⟩

/-! ## Claim C9: shape and quantization of the replay output -/

theorem sweep_snd_length {S : Type} (T : DPTable S) (b : ℕ → Bool) :
    ∀ ks : List ℕ, ((sweep T b ks).2).length = ks.length := by
  intro ks
  induction ks with
  | nil => rfl
  | cons k ks ih =>
      rw [sweep_snd_cons]
      simp [ih]

theorem replayWalk_lengths {S : Type} (T : DPTable S) (tick : S → ℚ × ℚ × ℚ) :
    ∀ (ps : List (S → Bool)) (c : S),
      (replayWalk T tick ps c).1.length = ps.length ∧
      (replayWalk T tick ps c).2.1.length = ps.length := by
  intro ps
  induction ps with
  | nil => intro c; exact ⟨rfl, rfl⟩
  | cons p ps ih =>
      intro c
      constructor
      · show ((p c) :: (replayWalk T tick ps (T.nxt (p c) c)).1).length = ps.length + 1
        simp [(ih (T.nxt (p c) c)).1]
      · show (tick (T.nxt (p c) c) ::
            (replayWalk T tick ps (T.nxt (p c) c)).2.1).length = ps.length + 1
        simp [(ih (T.nxt (p c) c)).2]

theorem replayWalk_states {S : Type} (T : DPTable S) (tick : S → ℚ × ℚ × ℚ) :
    ∀ (ps : List (S → Bool)) (c : S),
      (replayWalk T tick ps c).2.1 = (cellTrace T ps c).map tick := by
  intro ps
  induction ps with
  | nil => intro c; rfl
  | cons p ps ih =>
      intro c
      show tick (T.nxt (p c) c) :: (replayWalk T tick ps (T.nxt (p c) c)).2.1
        = tick (T.nxt (p c) c) :: (cellTrace T ps (T.nxt (p c) c)).map tick
      rw [ih (T.nxt (p c) c)]

theorem replayFromInit_eq_some (T : DPTable (ℕ × ℕ × ℕ))
    (tick : (ℕ × ℕ × ℕ) → ℚ × ℚ × ℚ) (pols : List ((ℕ × ℕ × ℕ) → Bool))
    (x0 : ℚ × ℚ × ℚ) (NX : ℕ) (c0 : ℤ × ℤ × ℤ) (i1 i2 i3 : ℕ)
    (h1 : wrapIdx NX c0.1 = some i1) (h2 : wrapIdx NX c0.2.1 = some i2)
    (h3 : wrapIdx NX c0.2.2 = some i3) :
    replayFromInit T tick pols x0 NX c0 =
      some ((replayWalk T tick pols (i1, i2, i3)).1,
        x0 :: (replayWalk T tick pols (i1, i2, i3)).2.1,
        (replayWalk T tick pols (i1, i2, i3)).2.2) := by
  rw [replayFromInit, h1, h2, h3]
  rfl

/-- C9.  Whenever the replay entry point succeeds for a solve of horizon `N`,
the control sequence has length exactly `N`, the reported state sequence has
length exactly `N + 1` (raw initial state followed by one state per stage),
and every state after the initial one is the tick value of the successor cell
recorded in the transition table — i.e. the trajectory is grid-quantized. -/
theorem replay_output_shape (T : DPTable (ℕ × ℕ × ℕ))
    (b : ℕ → Bool) (tick : (ℕ × ℕ × ℕ) → ℚ × ℚ × ℚ) (N : ℕ)
    (x0 : ℚ × ℚ × ℚ) (NX : ℕ) (c0 : ℤ × ℤ × ℤ)
    (r : List Bool × List (ℚ × ℚ × ℚ) × Cost)
    (h : replayFromInit T tick (sweep T b (List.range N)).2 x0 NX c0 = some r) :
    r.1.length = N ∧
    r.2.1.length = N + 1 ∧
    ∃ cs : ℕ × ℕ × ℕ,
      r.2.1 = x0 :: (cellTrace T (sweep T b (List.range N)).2 cs).map tick := by
  cases h1 : wrapIdx NX c0.1 with
  | none =>
      rw [replayFromInit, h1] at h
      exact absurd h (by simp)
  | some i1 =>
    cases h2 : wrapIdx NX c0.2.1 with
    | none =>
        rw [replayFromInit, h1, h2] at h
        exact absurd h (by simp)
    | some i2 =>
      cases h3 : wrapIdx NX c0.2.2 with
      | none =>
          rw [replayFromInit, h1, h2, h3] at h
          exact absurd h (by simp)
      | some i3 =>
        rw [replayFromInit_eq_some T tick _ x0 NX c0 i1 i2 i3 h1 h2 h3] at h
        have hr := Option.some.inj h
        subst hr
        refine ⟨?_, ?_, ⟨(i1, i2, i3), ?_⟩⟩
        · rw [(replayWalk_lengths T tick (sweep T b (List.range N)).2
            (i1, i2, i3)).1, sweep_snd_length]
          exact List.length_range N
        · show (replayWalk T tick (sweep T b (List.range N)).2
            (i1, i2, i3)).2.1.length + 1 = N + 1
          rw [(replayWalk_lengths T tick (sweep T b (List.range N)).2
            (i1, i2, i3)).2, sweep_snd_length]
          rw [List.length_range]
        · rw [replayWalk_states]

/-- Witness for C9: a concrete one-stage solve over a 1×1×1 grid; the replay
reports one control, two states, and the quantized tail. -/
theorem replay_output_shape_witness :
    (([false], [((7 : ℚ), (7 : ℚ), (7 : ℚ)), ((0 : ℚ), (0 : ℚ), (0 : ℚ))],
        (0 : Cost)) : List Bool × List (ℚ × ℚ × ℚ) × Cost).1.length = 1 ∧
    (([false], [((7 : ℚ), (7 : ℚ), (7 : ℚ)), ((0 : ℚ), (0 : ℚ), (0 : ℚ))],
        (0 : Cost)) : List Bool × List (ℚ × ℚ × ℚ) × Cost).2.1.length = 1 + 1 ∧
    ∃ cs : ℕ × ℕ × ℕ,
      (([false], [((7 : ℚ), (7 : ℚ), (7 : ℚ)), ((0 : ℚ), (0 : ℚ), (0 : ℚ))],
          (0 : Cost)) : List Bool × List (ℚ × ℚ × ℚ) × Cost).2.1
        = ((7 : ℚ), (7 : ℚ), (7 : ℚ)) ::
            (cellTrace probeT (sweep probeT (fun _ => false) (List.range 1)).2
              cs).map (fun _ => ((0 : ℚ), (0 : ℚ), (0 : ℚ))) :=
  replay_output_shape probeT (fun _ => false)
    (fun _ => ((0 : ℚ), (0 : ℚ), (0 : ℚ))) 1 ((7 : ℚ), (7 : ℚ), (7 : ℚ)) 1
    (0, 0, 0) _ (by with_unfolding_all decide)

/-! ## Claim C10: the initial snap is not redirected -/

/-- C10.  The snap of the true initial state applies the zero-shift rounding
formula with no out-of-range redirection: on a concrete 11-tick grid and an
initial state below the domain, the stored initial index is the raw negative
integer `-4`, which Python indexing resolves by wrapping to position `7` of
the tensors; replay is well defined under the precondition that all three
snapped indices lie in `[0, NX)`, in which case the walk starts from exactly
the snapped cell. -/
theorem initial_snap_unclamped :
    (∀ (T : DPTable (ℕ × ℕ × ℕ)) (tick : (ℕ × ℕ × ℕ) → ℚ × ℚ × ℚ)
        (pols : List ((ℕ × ℕ × ℕ) → Bool)) (x0 : ℚ × ℚ × ℚ) (NX : ℕ)
        (c0 : ℤ × ℤ × ℤ),
      0 ≤ c0.1 → c0.1 < NX → 0 ≤ c0.2.1 → c0.2.1 < NX →
      0 ≤ c0.2.2 → c0.2.2 < NX →
      replayFromInit T tick pols x0 NX c0 =
        some ((replayWalk T tick pols (c0.1.toNat, c0.2.1.toNat, c0.2.2.toNat)).1,
          x0 :: (replayWalk T tick pols
            (c0.1.toNat, c0.2.1.toNat, c0.2.2.toNat)).2.1,
          (replayWalk T tick pols
            (c0.1.toNat, c0.2.1.toNat, c0.2.2.toNat)).2.2)) ∧
    (initCell 11 1000 ((0 : ℚ), (0 : ℚ), (0 : ℚ))).1 = -4 ∧
    wrapIdx 11 (-4) = some 7 := by
  refine ⟨?_, by with_unfolding_all decide, by decide⟩
  intro T tick pols x0 NX c0 h1 h2 h3 h4 h5 h6
  rw [replayFromInit, wrapIdx, if_pos ⟨h1, h2⟩, wrapIdx, if_pos ⟨h3, h4⟩,
    wrapIdx, if_pos ⟨h5, h6⟩]
  rfl

/-- Witness for C10: an in-range snapped start on a 3-tick grid; the replay
succeeds and starts from the snapped cell. -/
theorem initial_snap_unclamped_witness :
    replayFromInit probeT (fun _ => ((0 : ℚ), (0 : ℚ), (0 : ℚ))) []
      ((5 : ℚ), (5 : ℚ), (5 : ℚ)) 3 (1, 2, 0)
      = some (([] : List Bool), [((5 : ℚ), (5 : ℚ), (5 : ℚ))], (0 : Cost)) := by
  have h := initial_snap_unclamped.1 probeT
    (fun _ => ((0 : ℚ), (0 : ℚ), (0 : ℚ))) [] ((5 : ℚ), (5 : ℚ), (5 : ℚ)) 3
    (1, 2, 0) (by decide) (by decide) (by decide) (by decide) (by decide)
    (by decide)
  simpa using h

/-! ## Claim C8: the failure surface -/

theorem ticksList_length (a b : ℚ) (NX : ℕ) : (ticksList a b NX).length = NX := by
  simp [ticksList]

theorem tickEnds_ok (l : List ℚ) (h : l ≠ []) :
    ∃ pr : ℚ × ℚ, tickEnds l = Except.ok pr := by
  refine ⟨(l.head h, l.getLast h), ?_⟩
  rw [tickEnds, List.head?_eq_head h, List.getLast?_eq_getLast l h]

theorem ctrlAt_ok (NU p : ℕ) (h : p < NU) :
    ∃ v : ℚ, ctrlAt NU p = Except.ok v := by
  have hlen : p < (ctrlVals NU).length := by
    rw [ctrlVals, List.length_map, List.length_range]
    exact h
  refine ⟨(ctrlVals NU).get ⟨p, hlen⟩, ?_⟩
  rw [ctrlAt, List.get?_eq_get hlen]

/-- Counterexample to C8 as stated: a configuration with all keys present,
a 7-entry day mask, but `NX = 0` passes everything the solve start actually
checks (there is no positivity validation), and the failure then surfaces
inside the grid-building path — so the caller-visible failure is not limited
to validation performed at solve start. -/
theorem pipeline_fails_in_grid_path :
    (readStart 2 ⟨some [1, 1, 1, 1, 1, 1, 1], none⟩
      ⟨some 1, some 2, some 0, none⟩).isOk = true ∧
    (dynamicProgPipeline 2 ((0 : ℚ), (0 : ℚ), (0 : ℚ)) 1000 0 (0, 0) 5000
      ⟨some [1, 1, 1, 1, 1, 1, 1], none⟩
      ⟨some 1, some 2, some 0, none⟩).isOk = false := by
  constructor
  · with_unfolding_all decide
  · with_unfolding_all decide

/-- C8 (amended).  The grid/transition/backward-induction path raises no
exceptions once the configuration reads succeed, the grid size is positive
and both accessed control entries exist (`NU ≥ 2`): every caller-visible
failure comes either from the implicit configuration reads at solve start
(missing keys, a day mask shorter than seven entries, a zero `N*NK` divisor)
or from the unvalidated grid-path accesses (`NX = 0` empty tick array,
`NU < 2` short per-control list); domain violations are encoded as cost `⊤`
and propagate through the minimization. -/
theorem pipeline_ok_after_validation (Tf : ℚ) (x0 : ℚ × ℚ × ℚ)
    (Base pvLambda : ℚ) (pin : ℚ × ℚ) (patientVolume : ℚ)
    (ao : AllowedOptsDict) (dpo : DpOptionsDict) (cfg : StartCfg)
    (hok : readStart Tf ao dpo = Except.ok cfg) (hNX : 0 < cfg.NX)
    (hNU : 2 ≤ cfg.NU) :
    dynamicProgPipeline Tf x0 Base pvLambda pin patientVolume ao dpo
      = Except.ok (dpCore Tf x0 Base pvLambda pin patientVolume cfg.days
          cfg.forb cfg.NK cfg.NU cfg.NX cfg.pShift) := by
  have hne : ∀ a b : ℚ, ticksList a b cfg.NX ≠ [] := by
    intro a b hcon
    have hlen := ticksList_length a b cfg.NX
    rw [hcon] at hlen
    simp at hlen
    omega
  obtain ⟨v0, hv0⟩ := ctrlAt_ok cfg.NU 0 (by omega)
  obtain ⟨v1, hv1⟩ := ctrlAt_ok cfg.NU 1 (by omega)
  obtain ⟨p1, hp1⟩ := tickEnds_ok _ (hne 50 170)
  obtain ⟨p2, hp2⟩ := tickEnds_ok _ (hne 35 150)
  obtain ⟨p3, hp3⟩ := tickEnds_ok _ (hne ((4/5) * Base) ((11/10) * Base))
  rw [dynamicProgPipeline, hok]
  show (ctrlAt cfg.NU 0) >>= _ = _
  rw [hv0]
  show (tickEnds (ticksList 50 170 cfg.NX)) >>= _ = _
  rw [hp1]
  show (tickEnds (ticksList 35 150 cfg.NX)) >>= _ = _
  rw [hp2]
  show (tickEnds (ticksList ((4/5) * Base) ((11/10) * Base) cfg.NX)) >>= _ = _
  rw [hp3]
  show (ctrlAt cfg.NU 1) >>= _ = _
  rw [hv1]
  rfl

/-- Witness for C8: a fully valid configuration (`NX = 1`) solves without a
caller-visible failure. -/
theorem pipeline_ok_after_validation_witness :
    dynamicProgPipeline 1 ((0 : ℚ), (0 : ℚ), (0 : ℚ)) 1000 0 (0, 0) 5000
      ⟨some [1, 1, 1, 1, 1, 1, 1], none⟩ ⟨some 1, some 2, some 1, none⟩
      = Except.ok (dpCore 1 ((0 : ℚ), (0 : ℚ), (0 : ℚ)) 1000 0 (0, 0) 5000
          [1, 1, 1, 1, 1, 1, 1] [] 1 2 1 none) := by
  have h := pipeline_ok_after_validation 1 ((0 : ℚ), (0 : ℚ), (0 : ℚ)) 1000 0
    (0, 0) 5000 ⟨some [1, 1, 1, 1, 1, 1, 1], none⟩ ⟨some 1, some 2, some 1, none⟩
    { N := 1, days := [1, 1, 1, 1, 1, 1, 1], forb := [], NK := 1, NU := 2,
      NX := 1, pShift := none, DT := 1 }
    (by with_unfolding_all rfl) (by decide) (by decide)
  exact h

end PVDP
